import Mathlib

/-!
# `base_template::Singleton<T>` (src/base_template/singleton.h)

A shallow embedding of the singleton holder template and the properties its
specification states about it.

The header has three pieces of code per wrapped type `T`:

* `Singleton<T>::instance()`: holds the function-local `static object_type obj;`,
  calls `create_object.do_nothing()` and returns a reference to `obj`;
* `Singleton<T>::object_creator::object_creator()`: calls `Singleton<T>::instance()`;
* `Singleton<T>::object_creator::do_nothing()`: empty body.

The memory these functions act on is modelled explicitly: the storage of the
function-local static together with its initialisation guard (`obj`), and the
static marker `create_object`.  Every function returns the value it returns in
the source, the memory after the call, and the list of calls and returns made
while it ran.

The default constructor of `T` is the caller's.  For one holder taken alone it is a
parameter `mk : T`, the value a default-constructed `T` has, and a leaf of the call
tree.  For a program with several holders it is code (`Ctors`): it runs in the storage
of the whole program and may call `instance()` of another holder.
-/

set_option autoImplicit false

namespace base_template

/-! ## Calls and traces -/

/-- The functions that can be on the call stack while the header's code runs. -/
inductive Fn where
  /-- The function `Singleton<T>::instance()`. -/
  | instance_
  /-- The constructor `Singleton<T>::object_creator::object_creator()`. -/
  | object_creator
  /-- The function `Singleton<T>::object_creator::do_nothing()`. -/
  | do_nothing
  /-- The default constructor `T::T()`, run by `static object_type obj;`. -/
  | object_type
  deriving DecidableEq, Repr

/-- The identity of the object a `T&` returned by `instance()` refers to, within one
holder: the object that the `gen`-th construction in the storage of `obj` produced.
(The storage itself is fixed per `T`; see `Address` for identities across holders.) -/
structure Ref where
  gen : Nat
  deriving DecidableEq, Repr

/-- One entry of a trace: a function is entered, or it returns (with the reference it
returns, for `instance()`; the other functions return nothing). -/
inductive Event where
  | call (f : Fn)
  | ret (f : Fn) (r : Option Ref)
  deriving DecidableEq, Repr

/-- Deepest call stack reached in a trace, given the current depth `cur` and the
deepest one seen so far `best`. -/
def depthAux : Nat → Nat → List Event → Nat
  | _, best, [] => best
  | cur, best, Event.call _ :: es => depthAux (cur + 1) (max best (cur + 1)) es
  | cur, best, Event.ret _ _ :: es => depthAux (cur - 1) best es

/-- Deepest call stack reached in a trace that starts with an empty stack. -/
def callDepth (es : List Event) : Nat := depthAux 0 0 es

/-- The references returned by the calls to `instance()` in a trace, in order. -/
def returned : List Event → List Ref
  | [] => []
  | Event.ret Fn.instance_ (some r) :: es => r :: returned es
  | _ :: es => returned es

/-- Number of times `T::T()` is entered in a trace. -/
def ctorCalls (es : List Event) : Nat := es.count (Event.call Fn.object_type)

/-! ## The holder -/

/-- The static storage of `Singleton<T>`.

* `obj` is the function-local `static object_type obj;` of `instance()`: `none` while
  its initialisation guard is unset, `some v` once `T::T()` has run, `v` being the
  current value of the object;
* `constructions` counts the runs of `T::T()` in that storage;
* `create_object` tells whether the constructor of the static member `create_object`
  has run. -/
structure Singleton (T : Type) where
  obj : Option T
  constructions : Nat
  create_object : Bool
  deriving DecidableEq, Repr

/-- What a function of the header leaves behind: the value it returns, the storage
after the call and the trace of the call. -/
structure Outcome (T : Type) (α : Type) where
  value : α
  state : Singleton T
  trace : List Event

/-- The two states of the holder's state machine. -/
inductive Phase where
  | uninitialized
  | initialized
  deriving DecidableEq, Repr

namespace Singleton

variable {T : Type}

/-- The storage at program start: guard unset, nothing constructed, marker not built. -/
def fresh : Singleton T := { obj := none, constructions := 0, create_object := false }

/-- The state of the state machine a storage is in. -/
def phase (h : Singleton T) : Phase :=
  match h.obj with
  | none => Phase.uninitialized
  | some _ => Phase.initialized

/-- The member `inline void do_nothing() const` of `object_creator`: its body is
empty. -/
def do_nothing (h : Singleton T) : Outcome T Unit :=
  { value := (), state := h,
    trace := [Event.call Fn.do_nothing, Event.ret Fn.do_nothing none] }

/-- The declaration `static object_type obj;` in `instance()`: the first time control
passes through it `T::T()` runs in the storage of `obj`; afterwards it is skipped. -/
def staticObj (mk : T) (h : Singleton T) : Outcome T Unit :=
  match h.obj with
  | some _ => { value := (), state := h, trace := [] }
  | none =>
    { value := (),
      state := { h with obj := some mk, constructions := h.constructions + 1 },
      trace := [Event.call Fn.object_type, Event.ret Fn.object_type none] }

/-- The body of `Singleton<T>::instance()`:
`static object_type obj; create_object.do_nothing(); return obj;` -/
def instance_ (mk : T) (h : Singleton T) : Outcome T Ref :=
  let s1 := staticObj mk h
  let s2 := do_nothing s1.state
  let r : Ref := { gen := s2.state.constructions }
  { value := r, state := s2.state,
    trace := [Event.call Fn.instance_] ++ s1.trace ++ s2.trace
               ++ [Event.ret Fn.instance_ (some r)] }

/-- The constructor of the marker: `object_creator() { Singleton<T>::instance(); }`,
run once for the static member `create_object`. -/
def object_creator (mk : T) (h : Singleton T) : Outcome T Unit :=
  let s := instance_ mk h
  { value := (), state := { s.state with create_object := true },
    trace := [Event.call Fn.object_creator] ++ s.trace
               ++ [Event.ret Fn.object_creator none] }

/-- Reading through a reference: the value of the object it refers to, if that object
is the one living in the storage. -/
def read (r : Ref) (h : Singleton T) : Option T :=
  if r.gen = h.constructions then h.obj else none

/-- Calling a mutating method `f` of `T` through a reference. -/
def write (r : Ref) (f : T → T) (h : Singleton T) : Singleton T :=
  if r.gen = h.constructions then { h with obj := h.obj.map f } else h

end Singleton

/-! ## Runs -/

/-- The two ways the holder is accessed: user code calls `instance()`, or the static
initialisation of `create_object` runs the marker's constructor. -/
inductive Access where
  | explicit
  | marker
  deriving DecidableEq, Repr

variable {T : Type}

/-- One access event. -/
def access (mk : T) (a : Access) (h : Singleton T) : Outcome T Unit :=
  match a with
  | Access.explicit =>
    let o := Singleton.instance_ mk h
    { value := (), state := o.state, trace := o.trace }
  | Access.marker => Singleton.object_creator mk h

/-- A sequence of access events, one after the other. -/
def run (mk : T) : List Access → Singleton T → Outcome T Unit
  | [], h => { value := (), state := h, trace := [] }
  | a :: as, h =>
    let o := access mk a h
    let rest := run mk as o.state
    { value := (), state := rest.state, trace := o.trace ++ rest.trace }

/-- A row of `k` calls of `create_object.do_nothing()`. -/
def touch : Nat → Singleton T → Singleton T
  | 0, h => h
  | k + 1, h => touch k (Singleton.do_nothing h).state

/-! ## The counter scenario -/

/-- Modelled from the spec: the wrapped type of the concrete scenario, "a simple
counter-holding type with a default constructor that initializes a counter to zero
and a method to increment it".  The header has no such type; it is the caller's. -/
structure Counter where
  count : Nat
  deriving DecidableEq, Repr

/-- Modelled from the spec: the default constructor of the counter type of the
scenario sets the counter to zero. -/
def Counter.new : Counter := { count := 0 }

/-- Modelled from the spec: the increment method of the counter type of the
scenario. -/
def Counter.increment (c : Counter) : Counter := { count := c.count + 1 }

/-- One call site of the scenario: `Singleton<Counter>::instance().increment();` -/
def accessAndIncrement (h : Singleton Counter) : Singleton Counter :=
  let o := Singleton.instance_ Counter.new h
  Singleton.write o.value Counter.increment o.state

/-- The scenario: `n` call sites one after the other from program start, then the
counter is read through a further `instance()` call. -/
def counterAfter (n : Nat) : Option Counter :=
  let h := (accessAndIncrement^[n]) Singleton.fresh
  let o := Singleton.instance_ Counter.new h
  Singleton.read o.value o.state

/-! ## Several holders -/

section Program

variable {ι : Type} [DecidableEq ι]

/-- The static storage of a program that instantiates the template for the types
`τ i`: every instantiation `Singleton<τ i>` has its own `obj` and `create_object`. -/
def Program (τ : ι → Type) : Type := (i : ι) → Singleton (τ i)

/-- The identity of an object across holders: the instantiation whose storage it lives
in, and the construction that produced it there. -/
structure Address (ι : Type) where
  slot : ι
  gen : Nat

variable {τ : ι → Type}

/-- The default constructors of the wrapped types, as the caller's code: `T::T()` for
`T = τ i` runs in the storage of the whole program and gives the value of the new object
and the storage it leaves.  It may call `instance()` of another holder, which the header
allows for ("this permits calls to instance() from static code"). -/
def Ctors (τ : ι → Type) : Type := (i : ι) → Program τ → τ i × Program τ

/-- Constructors that only produce their value and leave the storage of the program as
it is. -/
def leafCtors (mk : (i : ι) → τ i) : Ctors τ := fun i p => (mk i, p)

/-- The declaration `static object_type obj;` of `Singleton<τ i>::instance()` run in a
program: with the guard of `τ i` unset, `T::T()` runs, as the caller's code, in the whole
program, and the object it builds is placed in the storage of `τ i`; with the guard set
the declaration is skipped. -/
def Program.staticObj (ctor : Ctors τ) (i : ι) (p : Program τ) : Program τ :=
  match (p i).obj with
  | some _ => p
  | none =>
    let r := ctor i p
    Function.update r.2 i
      { r.2 i with obj := some r.1, constructions := (r.2 i).constructions + 1 }

/-- The function `Singleton<τ i>::instance()` run in a program:
`static object_type obj; create_object.do_nothing(); return obj;` on the storage of its
own instantiation, the constructor being the caller's code. -/
def Program.instance_ (ctor : Ctors τ) (i : ι) (p : Program τ) :
    Address ι × Program τ :=
  let p1 := Program.staticObj ctor i p
  let p2 := Function.update p1 i (Singleton.do_nothing (p1 i)).state
  ({ slot := i, gen := (p2 i).constructions }, p2)

/-- The constructor `Singleton<τ i>::object_creator::object_creator()` run in a
program: it calls `Singleton<τ i>::instance()`, after which `create_object` is built. -/
def Program.object_creator (ctor : Ctors τ) (i : ι) (p : Program τ) : Program τ :=
  let p1 := (Program.instance_ ctor i p).2
  Function.update p1 i { p1 i with create_object := true }

/-- One access event on the holder of `τ i`. -/
def Program.access (ctor : Ctors τ) (i : ι) (a : Access) (p : Program τ) :
    Program τ :=
  match a with
  | Access.explicit => (Program.instance_ ctor i p).2
  | Access.marker => Program.object_creator ctor i p

/-- Reading through a reference to an object of a program. -/
def Program.read (a : Address ι) (p : Program τ) : Option (τ a.slot) :=
  Singleton.read { gen := a.gen } (p a.slot)

/-- Calling a mutating method `f` through a reference to an object of a program. -/
def Program.write (a : Address ι) (f : τ a.slot → τ a.slot) (p : Program τ) :
    Program τ :=
  Function.update p a.slot (Singleton.write { gen := a.gen } f (p a.slot))

end Program

section Lemmas

variable {T : Type}

theorem instance_none (mk : T) (c : Nat) (b : Bool) :
    Singleton.instance_ mk ⟨none, c, b⟩ =
      { value := ⟨c + 1⟩, state := ⟨some mk, c + 1, b⟩,
        trace := [Event.call Fn.instance_, Event.call Fn.object_type,
          Event.ret Fn.object_type none, Event.call Fn.do_nothing,
          Event.ret Fn.do_nothing none, Event.ret Fn.instance_ (some ⟨c + 1⟩)] } := rfl

theorem instance_some (mk v : T) (c : Nat) (b : Bool) :
    Singleton.instance_ mk ⟨some v, c, b⟩ =
      { value := ⟨c⟩, state := ⟨some v, c, b⟩,
        trace := [Event.call Fn.instance_, Event.call Fn.do_nothing,
          Event.ret Fn.do_nothing none, Event.ret Fn.instance_ (some ⟨c⟩)] } := rfl

theorem object_creator_none (mk : T) (c : Nat) (b : Bool) :
    Singleton.object_creator mk ⟨none, c, b⟩ =
      { value := (), state := ⟨some mk, c + 1, true⟩,
        trace := [Event.call Fn.object_creator, Event.call Fn.instance_,
          Event.call Fn.object_type, Event.ret Fn.object_type none,
          Event.call Fn.do_nothing, Event.ret Fn.do_nothing none,
          Event.ret Fn.instance_ (some ⟨c + 1⟩), Event.ret Fn.object_creator none] } := rfl

theorem object_creator_some (mk v : T) (c : Nat) (b : Bool) :
    Singleton.object_creator mk ⟨some v, c, b⟩ =
      { value := (), state := ⟨some v, c, true⟩,
        trace := [Event.call Fn.object_creator, Event.call Fn.instance_,
          Event.call Fn.do_nothing, Event.ret Fn.do_nothing none,
          Event.ret Fn.instance_ (some ⟨c⟩), Event.ret Fn.object_creator none] } := rfl

theorem returned_append (xs ys : List Event) :
    returned (xs ++ ys) = returned xs ++ returned ys := by
  induction xs with
  | nil => rfl
  | cons x xs ih =>
    cases x with
    | call f => simpa [returned] using ih
    | ret f r =>
      cases f <;> cases r <;> simp [returned, ih]

theorem ctorCalls_append (xs ys : List Event) :
    ctorCalls (xs ++ ys) = ctorCalls xs + ctorCalls ys := by
  simp [ctorCalls]

/-- An access event of either kind in an initialised storage: the object and the count
of constructions stay, one reference to the object is returned, `T::T()` does not
run. -/
theorem access_some (mk v : T) (c : Nat) (b : Bool) (a : Access) :
    ∃ b2, (access mk a ⟨some v, c, b⟩).state = ⟨some v, c, b2⟩
      ∧ returned (access mk a ⟨some v, c, b⟩).trace = [⟨c⟩]
      ∧ ctorCalls (access mk a ⟨some v, c, b⟩).trace = 0 := by
  cases a
  · exact ⟨b, rfl, rfl, by simp [ctorCalls, access, Singleton.instance_, Singleton.staticObj, Singleton.do_nothing]⟩
  · exact ⟨true, rfl, rfl, by simp [ctorCalls, access, Singleton.object_creator, Singleton.instance_, Singleton.staticObj, Singleton.do_nothing]⟩

/-- An access event of either kind in an uninitialised storage: `T::T()` runs once and
a reference to the new object is returned. -/
theorem access_none (mk : T) (c : Nat) (b : Bool) (a : Access) :
    ∃ b2, (access mk a ⟨none, c, b⟩).state = ⟨some mk, c + 1, b2⟩
      ∧ returned (access mk a ⟨none, c, b⟩).trace = [⟨c + 1⟩]
      ∧ ctorCalls (access mk a ⟨none, c, b⟩).trace = 1 := by
  cases a
  · exact ⟨b, rfl, rfl, by simp [ctorCalls, access, Singleton.instance_, Singleton.staticObj, Singleton.do_nothing]⟩
  · exact ⟨true, rfl, rfl, by simp [ctorCalls, access, Singleton.object_creator, Singleton.instance_, Singleton.staticObj, Singleton.do_nothing]⟩

/-- A run in an initialised storage. -/
theorem run_some (mk v : T) (c : Nat) (es : List Access) (b : Bool) :
    ∃ b2, (run mk es ⟨some v, c, b⟩).state = ⟨some v, c, b2⟩
      ∧ returned (run mk es ⟨some v, c, b⟩).trace = List.replicate es.length ⟨c⟩
      ∧ ctorCalls (run mk es ⟨some v, c, b⟩).trace = 0 := by
  induction es generalizing b with
  | nil => exact ⟨b, rfl, rfl, rfl⟩
  | cons a as ih =>
    obtain ⟨b1, h1, h2, h3⟩ := access_some mk v c b a
    obtain ⟨b2, k1, k2, k3⟩ := ih b1
    refine ⟨b2, ?_, ?_, ?_⟩
    · simp only [run, h1, k1]
    · simp only [run, returned_append, h1, h2, k2, List.length_cons,
        List.replicate_succ, List.singleton_append]
    · simp only [run, ctorCalls_append, h1, h3, k3]

/-- A non-empty run in an uninitialised storage. -/
theorem run_none (mk : T) (c : Nat) (a : Access) (as : List Access) (b : Bool) :
    ∃ b2, (run mk (a :: as) ⟨none, c, b⟩).state = ⟨some mk, c + 1, b2⟩
      ∧ returned (run mk (a :: as) ⟨none, c, b⟩).trace
          = List.replicate (as.length + 1) ⟨c + 1⟩
      ∧ ctorCalls (run mk (a :: as) ⟨none, c, b⟩).trace = 1 := by
  obtain ⟨b1, h1, h2, h3⟩ := access_none mk c b a
  obtain ⟨b2, k1, k2, k3⟩ := run_some mk mk (c + 1) as b1
  refine ⟨b2, ?_, ?_, ?_⟩
  · simp only [run, h1, k1]
  · simp only [run, returned_append, h1, h2, k2, List.replicate_succ,
      List.singleton_append]
  · simp only [run, ctorCalls_append, h1, h3, k3]

theorem run_append (mk : T) (xs ys : List Access) (h : Singleton T) :
    (run mk (xs ++ ys) h).state = (run mk ys (run mk xs h).state).state := by
  induction xs generalizing h with
  | nil => rfl
  | cons a as ih => exact ih _

end Lemmas

section MoreLemmas

variable {T : Type}

theorem touch_eq (k : Nat) (h : Singleton T) : touch k h = h := by
  induction k with
  | zero => rfl
  | succ k ih => exact ih

theorem run_cons_initialized (mk : T) (a : Access) (as : List Access) (h : Singleton T) :
    (run mk (a :: as) h).state.phase = Phase.initialized := by
  rcases h with ⟨_ | v, c, b⟩
  · obtain ⟨b2, h1, -, -⟩ := run_none mk c a as b
    rw [h1]; rfl
  · obtain ⟨b2, h1, -, -⟩ := run_some mk v c (a :: as) b
    rw [h1]; rfl

theorem iterate_accessAndIncrement (n : Nat) :
    (accessAndIncrement^[n + 1]) Singleton.fresh = ⟨some ⟨n + 1⟩, 1, false⟩ := by
  induction n with
  | zero => rfl
  | succ n ih =>
    rw [Function.iterate_succ_apply', ih]
    rfl

theorem counterAfter_eq (n : Nat) : counterAfter n = some ⟨n⟩ := by
  cases n with
  | zero => rfl
  | succ n =>
    unfold counterAfter
    rw [iterate_accessAndIncrement]
    rfl

end MoreLemmas

section ProgramLemmas

variable {ι : Type} [DecidableEq ι] {τ : ι → Type}

/-- With constructors that are leaves, `instance()` run in a program is the
`instance()` of the holder run on the storage of its instantiation. -/
theorem program_instance_leaf (mk : (i : ι) → τ i) (i : ι) (p : Program τ) :
    Program.instance_ (leafCtors mk) i p
      = ({ slot := i, gen := (Singleton.instance_ (mk i) (p i)).value.gen },
          Function.update p i (Singleton.instance_ (mk i) (p i)).state) := by
  cases hobj : (p i).obj with
  | none =>
    simp [Program.instance_, Program.staticObj, leafCtors, Singleton.instance_,
      Singleton.staticObj, Singleton.do_nothing, hobj]
  | some v =>
    simp [Program.instance_, Program.staticObj, leafCtors, Singleton.instance_,
      Singleton.staticObj, Singleton.do_nothing, hobj]

end ProgramLemmas

/-! ## The properties of the specification -/

section Claims

variable {T : Type}

/-- C1, identity stability.  In a run of access events of either kind, in any order and
from any storage, every event makes one call to `instance()` (so there are as many
returned references as events), and the `k`-th call returns the identity the first call
returns, which is the identity a call in the starting storage returns. -/
theorem identity_stability (mk : T) (es : List Access) (h : Singleton T) (k : Nat)
    (hk : k < es.length) :
    (returned (run mk es h).trace).length = es.length
      ∧ (returned (run mk es h).trace)[k]? = (returned (run mk es h).trace)[0]?
      ∧ (returned (run mk es h).trace)[0]? = some (Singleton.instance_ mk h).value := by
  have key : returned (run mk es h).trace
      = List.replicate es.length (Singleton.instance_ mk h).value := by
    rcases h with ⟨_ | v, c, b⟩
    · cases es with
      | nil => rfl
      | cons a as =>
        obtain ⟨b2, -, h2, -⟩ := run_none mk c a as b
        rw [h2]; rfl
    · obtain ⟨b2, -, h2, -⟩ := run_some mk v c es b
      rw [h2]; rfl
  have h0 : 0 < es.length := by omega
  rw [key]
  simp [List.getElem?_replicate, hk, h0]

theorem identity_stability_witness :
    2 < [Access.explicit, Access.marker, Access.explicit].length
      ∧ (returned (run (0 : Nat) [Access.explicit, Access.marker, Access.explicit]
            Singleton.fresh).trace)[2]? = some ⟨1⟩
      ∧ (returned (run (0 : Nat) [Access.explicit, Access.marker, Access.explicit]
            Singleton.fresh).trace)[0]? = some ⟨1⟩ := by
  have h := identity_stability (0 : Nat) [Access.explicit, Access.marker, Access.explicit]
    Singleton.fresh 2 (by decide)
  exact ⟨by decide, h.2.1.trans h.2.2, h.2.2⟩

/-- C2, single construction.  Over a non-empty run of access events of either kind from
program start, `T::T()` is entered exactly once in the trace of the run, and the
storage has counted exactly one construction, whatever the length of the run. -/
theorem single_construction (mk : T) (es : List Access) (hne : es ≠ []) :
    ctorCalls (run mk es Singleton.fresh).trace = 1
      ∧ (run mk es Singleton.fresh).state.constructions = 1 := by
  cases es with
  | nil => exact absurd rfl hne
  | cons a as =>
    obtain ⟨b2, h1, -, h3⟩ := run_none mk 0 a as false
    exact ⟨h3, by rw [show (Singleton.fresh : Singleton T) = ⟨none, 0, false⟩ from rfl, h1]⟩

theorem single_construction_witness :
    ctorCalls (run (0 : Nat) [Access.marker, Access.explicit, Access.explicit,
        Access.marker] Singleton.fresh).trace = 1
      ∧ (run (0 : Nat) [Access.marker, Access.explicit, Access.explicit, Access.marker]
          Singleton.fresh).state.constructions = 1 :=
  single_construction (0 : Nat)
    [Access.marker, Access.explicit, Access.explicit, Access.marker] (by decide)

/-- C3, the counter scenario.  With the counter type wrapped, `n` accesses from program
start, each followed by one increment through the returned reference, leave the counter
read through a further `instance()` call at `n`; three accesses give 3. -/
theorem counter_scenario (n : Nat) :
    counterAfter n = some { count := n } ∧ counterAfter 3 = some { count := 3 } :=
  ⟨counterAfter_eq n, counterAfter_eq 3⟩

/-- C4, early availability.  In every storage, `instance()` returns a reference through
which a constructed `T` is read: the object that was there, or, when the guard was
unset, the default-constructed value.  This holds with `create_object` built or not; in
particular at program start, where nothing is built, the default value is read. -/
theorem early_availability (mk : T) (h : Singleton T) :
    Singleton.read (Singleton.instance_ mk h).value (Singleton.instance_ mk h).state
        = some (h.obj.getD mk)
      ∧ Singleton.read (Singleton.instance_ mk { h with create_object := false }).value
          (Singleton.instance_ mk { h with create_object := false }).state
        = some (h.obj.getD mk)
      ∧ Singleton.read (Singleton.instance_ mk Singleton.fresh).value
          (Singleton.instance_ mk Singleton.fresh).state = some mk := by
  rcases h with ⟨_ | v, c, b⟩ <;>
    simp [Singleton.read, Singleton.instance_, Singleton.staticObj, Singleton.do_nothing,
      Singleton.fresh]

/-- C6, eager construction.  The marker's constructor calls `instance()`, and after it
has run the holder is initialised and the marker built, from any storage; so a run from
program start in which the marker is constructed ends initialised, whatever explicit
calls come before or after it, also none. -/
theorem eager_construction (mk : T) (h : Singleton T) (pre post : List Access) :
    Event.call Fn.instance_ ∈ (Singleton.object_creator mk h).trace
      ∧ (Singleton.object_creator mk h).state.phase = Phase.initialized
      ∧ (Singleton.object_creator mk h).state.create_object = true
      ∧ (run mk (pre ++ Access.marker :: post) Singleton.fresh).state.phase
          = Phase.initialized
      ∧ (run mk [Access.marker] Singleton.fresh).state = ⟨some mk, 1, true⟩ := by
  refine ⟨?_, ?_, rfl, ?_, rfl⟩
  · rcases h with ⟨_ | v, c, b⟩
    · rw [object_creator_none]; simp
    · rw [object_creator_some]; simp
  · rcases h with ⟨_ | v, c, b⟩ <;> rfl
  · cases pre with
    | nil => exact run_cons_initialized mk _ _ _
    | cons a as => exact run_cons_initialized mk _ _ _

/-- C7, pure read after construction.  In an initialised storage `instance()` leaves the
storage as it was, returns a reference to the object that is there (its identity is that
of the last construction, its value is read unchanged), and does not run `T::T()`:
nothing but a call in the uninitialised state constructs. -/
theorem pure_read_after_construction (mk : T) (h : Singleton T)
    (hi : h.phase = Phase.initialized) :
    (Singleton.instance_ mk h).state = h
      ∧ (Singleton.instance_ mk h).value = ⟨h.constructions⟩
      ∧ Singleton.read (Singleton.instance_ mk h).value (Singleton.instance_ mk h).state
          = h.obj
      ∧ ctorCalls (Singleton.instance_ mk h).trace = 0 := by
  rcases h with ⟨_ | v, c, b⟩
  · exact absurd hi (fun e => Phase.noConfusion e)
  · refine ⟨rfl, rfl, ?_, ?_⟩
    · simp [Singleton.read, instance_some]
    · simp [ctorCalls, instance_some]

theorem pure_read_after_construction_witness :
    (⟨some 7, 1, true⟩ : Singleton Nat).phase = Phase.initialized
      ∧ (Singleton.instance_ 0 (⟨some 7, 1, true⟩ : Singleton Nat)).state
          = ⟨some 7, 1, true⟩
      ∧ ctorCalls (Singleton.instance_ 0 (⟨some 7, 1, true⟩ : Singleton Nat)).trace = 0 :=
  have h := pure_read_after_construction (0 : Nat) ⟨some 7, 1, true⟩ (by decide)
  ⟨by decide, h.1, h.2.2.2⟩

/-- C8, state machine.  The holder has two states and starts uninitialised.  An access
event of either kind ends in the initialised state, with the object that was there or,
from the uninitialised state, the default-constructed one; it runs `T::T()` once from the
uninitialised state and never from the initialised one, so no event leads back or
constructs again.  The marker's construction followed by an explicit access, and the two
in the other order, end in the same storage and return the same references. -/
theorem state_machine (mk : T) (a : Access) (h : Singleton T) :
    (∀ ph : Phase, ph = Phase.uninitialized ∨ ph = Phase.initialized)
      ∧ (Singleton.fresh : Singleton T).phase = Phase.uninitialized
      ∧ (access mk a h).state.phase = Phase.initialized
      ∧ (access mk a h).state.obj = some (h.obj.getD mk)
      ∧ ctorCalls (access mk a h).trace
          = (if h.phase = Phase.uninitialized then 1 else 0)
      ∧ (access mk a h).state.constructions
          = h.constructions + (if h.phase = Phase.uninitialized then 1 else 0)
      ∧ (run mk [Access.marker, Access.explicit] h).state
          = (run mk [Access.explicit, Access.marker] h).state
      ∧ returned (run mk [Access.marker, Access.explicit] h).trace
          = returned (run mk [Access.explicit, Access.marker] h).trace := by
  refine ⟨fun ph => by cases ph <;> simp, rfl, ?_⟩
  rcases h with ⟨_ | v, c, b⟩
  · obtain ⟨b2, h1, -, h3⟩ := access_none mk c b a
    refine ⟨by rw [h1]; rfl, by rw [h1]; rfl, ?_, ?_, rfl, rfl⟩
    · rw [h3]; rfl
    · rw [h1]; rfl
  · obtain ⟨b2, h1, -, h3⟩ := access_some mk v c b a
    refine ⟨by rw [h1]; rfl, by rw [h1]; rfl, ?_, ?_, rfl, rfl⟩
    · rw [h3]; rfl
    · rw [h1]; rfl

/-- C9, idempotent no-op touch.  In a storage where the object exists, `k` calls of
`do_nothing()` leave the storage as it was, so a later `instance()` returns what it
would have returned.  Within `instance()`, from any storage `g`, the call of
`do_nothing()` is made in the storage the static declaration leaves, which is
initialised, and `T::T()` is not entered from the call of `do_nothing()` on. -/
theorem idempotent_touch (mk : T) (h : Singleton T) (k : Nat)
    (hi : h.phase = Phase.initialized) (g : Singleton T) :
    touch k h = h
      ∧ (touch k h).phase = Phase.initialized
      ∧ (Singleton.instance_ mk (touch k h)).value = (Singleton.instance_ mk h).value
      ∧ (Singleton.instance_ mk g).trace
          = [Event.call Fn.instance_] ++ (Singleton.staticObj mk g).trace
              ++ (Singleton.do_nothing (Singleton.staticObj mk g).state).trace
              ++ [Event.ret Fn.instance_ (some (Singleton.instance_ mk g).value)]
      ∧ (Singleton.staticObj mk g).state.phase = Phase.initialized
      ∧ ctorCalls ((Singleton.instance_ mk g).trace.dropWhile
          (fun e => e != Event.call Fn.do_nothing)) = 0 := by
  refine ⟨touch_eq k h, by rw [touch_eq]; exact hi, by rw [touch_eq], rfl, ?_, ?_⟩
  · rcases g with ⟨_ | v, c, b⟩ <;> rfl
  · rcases g with ⟨_ | v, c, b⟩
    · rw [instance_none]; rfl
    · rw [instance_some]; rfl

theorem idempotent_touch_witness :
    (⟨some 7, 1, true⟩ : Singleton Nat).phase = Phase.initialized
      ∧ touch 5 (⟨some 7, 1, true⟩ : Singleton Nat) = ⟨some 7, 1, true⟩ :=
  have h := idempotent_touch (0 : Nat) ⟨some 7, 1, true⟩ 5 (by decide) Singleton.fresh
  ⟨by decide, h.1⟩

/-- C10, no unbounded mutual recursion.  With `T::T()` a leaf of the call tree, from every
storage `instance()` returns, entering `instance()` once and the marker's constructor
never, with at most two frames on the stack; the marker's constructor returns, entering
itself once and `instance()` once, with at most three frames on the stack. -/
theorem bounded_call_depth (mk : T) (h : Singleton T) :
    (Singleton.instance_ mk h).trace.getLast?
        = some (Event.ret Fn.instance_ (some (Singleton.instance_ mk h).value))
      ∧ (Singleton.instance_ mk h).trace.count (Event.call Fn.instance_) = 1
      ∧ (Singleton.instance_ mk h).trace.count (Event.call Fn.object_creator) = 0
      ∧ callDepth (Singleton.instance_ mk h).trace = 2
      ∧ (Singleton.object_creator mk h).trace.getLast?
          = some (Event.ret Fn.object_creator none)
      ∧ (Singleton.object_creator mk h).trace.count (Event.call Fn.object_creator) = 1
      ∧ (Singleton.object_creator mk h).trace.count (Event.call Fn.instance_) = 1
      ∧ callDepth (Singleton.object_creator mk h).trace = 3 := by
  rcases h with ⟨_ | v, c, b⟩
  · rw [instance_none, object_creator_none]
    refine ⟨rfl, ?_, ?_, rfl, rfl, ?_, ?_, rfl⟩ <;> simp
  · rw [instance_some, object_creator_some]
    refine ⟨rfl, ?_, ?_, rfl, rfl, ?_, ?_, rfl⟩ <;> simp

end Claims

end base_template
